import Mathlib

/-!
Shallow embedding of the custom logic of the firebase-auth-setup
repository: the auth state store (`AuthProvider` and `useAuth` in
`use-auth.tsx`) and the `Header` view with its `getInitials` helper
(`header.tsx`).  The external identity service (Firebase) is out of
scope; its notifications, popup results and sign-out results enter the
model as events.
-/

namespace FirebaseAuthSetup

/-- A user as consumed by this app's own code: only `displayName` and
`photoURL` are read.  Absent fields are `none`, mirroring
`string | null` in the SDK's `User`. -/
structure UserIdentity where
  displayName : Option String
  photoURL : Option String
  deriving DecidableEq, Repr

/-- JavaScript `String.prototype.split` with a single-character
separator: `"a  b".split(" ")` is `["a", "", "b"]` and `"".split(" ")`
is `[""]`. -/
def jsSplitChar (sep : Char) : List Char → List (List Char)
  | [] => [[]]
  | c :: rest =>
    if c = sep then [] :: jsSplitChar sep rest
    else
      match jsSplitChar sep rest with
      | [] => [[c]]
      | t :: ts => (c :: t) :: ts

/-- JavaScript `(n) => n[0]` followed by `.join("")`: a non-empty token
contributes its first character, an empty token contributes nothing
(`(""))[0]` is `undefined`, which `join` renders as the empty string). -/
def firstCharOrNothing : List Char → List Char
  | [] => []
  | c :: _ => [c]

/-- The characters produced by
`name.split(" ").map((n) => n[0]).join("")` for a non-empty `name`. -/
def initialsChars (l : List Char) : List Char :=
  ((jsSplitChar ' ' l).map firstCharOrNothing).flatten

/-- `getInitials` from `header.tsx`:
`if (!name) return "U"; return name.split(" ").map((n) => n[0]).join("");`
`!name` is true exactly for `null` / `undefined` and the empty string. -/
def getInitials (name : Option String) : String :=
  match name with
  | none => "U"
  | some s => if s = "" then "U" else String.mk (initialsChars s.data)

/-- Modelled from the spec's wording of the initials algorithm, using
the library splitter instead of the hand-rolled one: "split
`displayName` on single spaces, take the first character of each
resulting token, concatenate in order; if `displayName` is absent or
empty, produce the single character `U`". -/
def specInitials (name : Option String) : String :=
  match name with
  | none => "U"
  | some s =>
    if s = "" then "U"
    else String.mk (((s.data.splitOn ' ').map firstCharOrNothing).flatten)

/-- The state held by `AuthProvider`: the `user` and `loading` React
state, whether the `onAuthStateChanged` subscription is still active,
and how many `console.error` diagnostic entries have been emitted. -/
structure Store where
  user : Option UserIdentity
  loading : Bool
  subscribed : Bool
  errorLog : Nat
  deriving DecidableEq, Repr

/-- Store state right after `AuthProvider` mounts: `useState(null)`,
`useState(true)`, and the mount effect has registered the single
`onAuthStateChanged` subscription. -/
def initStore : Store :=
  { user := none, loading := true, subscribed := true, errorLog := 0 }

/-- The subscription callback:
`setUser(currentUser); setLoading(false)`.  It only fires while the
subscription is active. -/
def onAuthStateChanged (s : Store) (currentUser : Option UserIdentity) :
    Store :=
  if s.subscribed then { s with user := currentUser, loading := false }
  else s

/-- `loginWithGoogle`: awaits `signInWithPopup`; on rejection the error
is caught and logged once via `console.error`, nothing else changes,
and nothing is re-thrown (the function is total and returns a `Store`,
not an exception). -/
def loginWithGoogle (s : Store) (popupResult : Except String Unit) :
    Store :=
  match popupResult with
  | .ok _ => s
  | .error _ => { s with errorLog := s.errorLog + 1 }

/-- `logout`: awaits `signOut`; on rejection the error is caught and
logged once via `console.error`, nothing else changes, and nothing is
re-thrown. -/
def logout (s : Store) (signOutResult : Except String Unit) : Store :=
  match signOutResult with
  | .ok _ => s
  | .error _ => { s with errorLog := s.errorLog + 1 }

/-- The `useEffect` cleanup returned on mount: `() => unsubscribe()`.
React invokes it when the owning view unmounts. -/
def teardown (s : Store) : Store := { s with subscribed := false }

/-- One observable event in the life of the store: a notification from
the identity service, the settling of a `loginWithGoogle` popup, the
settling of a `logout` call, or the unmount cleanup. -/
inductive AuthEvent where
  | notify (currentUser : Option UserIdentity)
  | login (popupResult : Except String Unit)
  | signOutCall (signOutResult : Except String Unit)
  | cleanup
  deriving Repr

/-- How each event transforms the store. -/
def step (s : Store) : AuthEvent → Store
  | .notify u => onAuthStateChanged s u
  | .login r => loginWithGoogle s r
  | .signOutCall r => logout s r
  | .cleanup => teardown s

/-- The store obtained by delivering a sequence of events to a freshly
mounted `AuthProvider`. -/
def run (evs : List AuthEvent) : Store := evs.foldl step initStore

/-- The number of live `onAuthStateChanged` subscriptions held by a
store state. -/
def subscriptionCount (s : Store) : Nat := if s.subscribed then 1 else 0

/-- The two click actions the header can bind. -/
inductive UIAction where
  | doLogin
  | doLogout
  deriving DecidableEq, Repr

/-- What `Header` renders in its right-hand slot: either the login
button, or the avatar (image plus initials fallback) whose dropdown
menu carries a label and a single click action. -/
inductive HeaderView where
  | loginButton (onClick : UIAction)
  | avatarMenu (imageSrc : String) (imageAlt : String)
      (fallbackInitials : String) (menuLabel : String)
      (menuItemClick : UIAction)
  deriving DecidableEq, Repr

/-- The `Header` component from `header.tsx` as a function of the
session's `user` value. -/
def Header (user : Option UserIdentity) : HeaderView :=
  match user with
  | none => .loginButton .doLogin
  | some u =>
    .avatarMenu (u.photoURL.getD "") (u.displayName.getD "User")
      (getInitials u.displayName) (u.displayName.getD "") .doLogout

/-- `{!loading && children}` in `AuthProvider`'s JSX: the children are
withheld entirely while `loading` is true. -/
def providerChildren {α : Type} (loading : Bool) (children : α) :
    Option α :=
  if loading then none else some children

/-- `useAuth` from `use-auth.tsx`: reading the context outside an
`AuthProvider` finds `undefined` and throws immediately. -/
def useAuth (ctx : Option Store) : Except String Store :=
  match ctx with
  | none => .error "useAuth must be used within an AuthProvider"
  | some c => .ok c

/-! ### Helper lemmas -/

theorem jsSplitChar_ne_nil (sep : Char) (l : List Char) :
    jsSplitChar sep l ≠ [] := by
  cases l with
  | nil => simp [jsSplitChar]
  | cons c rest =>
    simp only [jsSplitChar]
    split
    · simp
    · split <;> simp

/-- The hand-rolled JavaScript splitter agrees with the library's
`List.splitOn`. -/
theorem jsSplitChar_eq_splitOn (sep : Char) (l : List Char) :
    jsSplitChar sep l = l.splitOn sep := by
  induction l with
  | nil => rfl
  | cons c rest ih =>
    by_cases h : c = sep
    · simp [jsSplitChar, h, List.splitOn, List.splitOnP_cons, ih]
    · cases hr : jsSplitChar sep rest with
      | nil => exact absurd hr (jsSplitChar_ne_nil sep rest)
      | cons t ts =>
        have hrest : rest.splitOn sep = t :: ts := by rw [← ih, hr]
        simp only [List.splitOn] at hrest
        simp [jsSplitChar, if_neg h, hr, List.splitOn, List.splitOnP_cons,
          h, hrest, List.modifyHead]

theorem step_loading_false {s : Store} (hs : s.loading = false)
    (e : AuthEvent) : (step s e).loading = false := by
  cases e with
  | notify u =>
    simp only [step, onAuthStateChanged]
    split <;> simp [hs]
  | login r => cases r <;> simpa [step, loginWithGoogle] using hs
  | signOutCall r => cases r <;> simpa [step, logout] using hs
  | cleanup => simpa [step, teardown] using hs

theorem foldl_loading_false {s : Store} (hs : s.loading = false)
    (evs : List AuthEvent) : (evs.foldl step s).loading = false := by
  induction evs generalizing s with
  | nil => exact hs
  | cons e rest ih => exact ih (step_loading_false hs e)

theorem step_loading_true {s : Store} (hs : s.loading = true)
    {e : AuthEvent} (he : ∀ u, e ≠ AuthEvent.notify u) :
    (step s e).loading = true := by
  cases e with
  | notify u => exact absurd rfl (he u)
  | login r => cases r <;> simpa [step, loginWithGoogle] using hs
  | signOutCall r => cases r <;> simpa [step, logout] using hs
  | cleanup => simpa [step, teardown] using hs

theorem foldl_loading_true {s : Store} (hs : s.loading = true)
    {evs : List AuthEvent}
    (h : ∀ e ∈ evs, ∀ u, e ≠ AuthEvent.notify u) :
    (evs.foldl step s).loading = true := by
  induction evs generalizing s with
  | nil => exact hs
  | cons e rest ih =>
    exact ih (step_loading_true hs (h e (List.mem_cons_self e rest)))
      (fun e' he' => h e' (List.mem_cons_of_mem e he'))

theorem step_subscribed_of_ne_cleanup {s : Store} (hs : s.subscribed = true)
    {e : AuthEvent} (he : e ≠ AuthEvent.cleanup) :
    (step s e).subscribed = true := by
  cases e with
  | notify u =>
    simp only [step, onAuthStateChanged]
    split <;> simp [hs]
  | login r => cases r <;> simpa [step, loginWithGoogle] using hs
  | signOutCall r => cases r <;> simpa [step, logout] using hs
  | cleanup => exact absurd rfl he

theorem foldl_subscribed {s : Store} (hs : s.subscribed = true)
    {evs : List AuthEvent} (h : ∀ e ∈ evs, e ≠ AuthEvent.cleanup) :
    (evs.foldl step s).subscribed = true := by
  induction evs generalizing s with
  | nil => exact hs
  | cons e rest ih =>
    exact ih (step_subscribed_of_ne_cleanup hs
        (h e (List.mem_cons_self e rest)))
      (fun e' he' => h e' (List.mem_cons_of_mem e he'))

theorem step_frozen {s : Store} (hs : s.subscribed = false)
    (e : AuthEvent) :
    (step s e).subscribed = false ∧ (step s e).user = s.user
      ∧ (step s e).loading = s.loading := by
  cases e with
  | notify u => simp [step, onAuthStateChanged, hs]
  | login r => cases r <;> simp [step, loginWithGoogle, hs]
  | signOutCall r => cases r <;> simp [step, logout, hs]
  | cleanup => simp [step, teardown, hs]

theorem foldl_frozen {s : Store} (hs : s.subscribed = false)
    (evs : List AuthEvent) :
    (evs.foldl step s).user = s.user
      ∧ (evs.foldl step s).loading = s.loading := by
  induction evs generalizing s with
  | nil => exact ⟨rfl, rfl⟩
  | cons e rest ih =>
    obtain ⟨h1, h2, h3⟩ := step_frozen hs e
    obtain ⟨ih1, ih2⟩ := ih h1
    exact ⟨ih1.trans h2, ih2.trans h3⟩

theorem jsSplitChar_all_sep {sep : Char} {l : List Char}
    (h : ∀ c ∈ l, c = sep) : ∀ t ∈ jsSplitChar sep l, t = [] := by
  induction l with
  | nil =>
    intro t ht
    simp only [jsSplitChar, List.mem_singleton] at ht
    exact ht
  | cons c rest ih =>
    have hc : c = sep := h c (List.mem_cons_self c rest)
    intro t ht
    simp only [jsSplitChar, if_pos hc, List.mem_cons] at ht
    rcases ht with h0 | h1
    · exact h0
    · exact ih (fun c' hc' => h c' (List.mem_cons_of_mem c hc')) t h1

theorem split_double_sep (sep : Char) (l₁ l₂ : List Char) :
    ∃ t ts,
      jsSplitChar sep (l₁ ++ sep :: l₂)
        = t :: (ts ++ jsSplitChar sep l₂)
      ∧ jsSplitChar sep (l₁ ++ sep :: sep :: l₂)
        = t :: (ts ++ [] :: jsSplitChar sep l₂) := by
  induction l₁ with
  | nil => exact ⟨[], [], by simp [jsSplitChar], by simp [jsSplitChar]⟩
  | cons c l₁ ih =>
    obtain ⟨t, ts, h1, h2⟩ := ih
    by_cases hc : c = sep
    · exact ⟨[], t :: ts, by simp [jsSplitChar, hc, h1],
        by simp [jsSplitChar, hc, h2]⟩
    · refine ⟨c :: t, ts, ?_, ?_⟩
      · simp [jsSplitChar, if_neg hc, h1]
      · simp [jsSplitChar, if_neg hc, h2]

theorem initialsChars_double_space (l₁ l₂ : List Char) :
    initialsChars (l₁ ++ ' ' :: ' ' :: l₂)
      = initialsChars (l₁ ++ ' ' :: l₂) := by
  obtain ⟨t, ts, h1, h2⟩ := split_double_sep ' ' l₁ l₂
  simp [initialsChars, h1, h2, firstCharOrNothing]

/-! ### Claim theorems -/

/-- C1: `getInitials` computes exactly the spec's initials algorithm —
split on single spaces, first character of each token, concatenated in
order, no case normalization; absent or empty `displayName` yields
`"U"`; and the three example scenarios hold. -/
theorem c1_initials_algorithm :
    (∀ name, getInitials name = specInitials name)
    ∧ getInitials (some "Ada Lovelace") = "AL"
    ∧ getInitials none = "U"
    ∧ getInitials (some "") = "U"
    ∧ getInitials (some "madonna") = "m" := by
  refine ⟨?_, by decide, rfl, by decide, by decide⟩
  intro name
  cases name with
  | none => rfl
  | some s =>
    simp only [getInitials, specInitials, initialsChars,
      jsSplitChar_eq_splitOn]

/-- C2: `loading` (the Session's `isResolving`) is true immediately
after store creation; once the first notification is delivered over the
live subscription (no cleanup before it), `loading` is false and stays
false for any continuation of the run. -/
theorem c2_isResolving_lifecycle :
    initStore.loading = true
    ∧ ∀ (pre : List AuthEvent) (u : Option UserIdentity)
        (post : List AuthEvent),
        (∀ e ∈ pre, e ≠ AuthEvent.cleanup) →
        (run (pre ++ AuthEvent.notify u :: post)).loading = false := by
  refine ⟨rfl, ?_⟩
  intro pre u post hpre
  have hsub : (pre.foldl step initStore).subscribed = true :=
    foldl_subscribed rfl hpre
  have hstep :
      (step (pre.foldl step initStore) (AuthEvent.notify u)).loading
        = false := by
    simp [step, onAuthStateChanged, hsub]
  calc (run (pre ++ AuthEvent.notify u :: post)).loading
      = (post.foldl step
          (step (pre.foldl step initStore) (AuthEvent.notify u))).loading :=
        by simp [run, List.foldl_append]
    _ = false := foldl_loading_false hstep post

/-- Witness for C2 at a concrete run: one notification reporting no
identity flips `loading` to false. -/
theorem c2_isResolving_lifecycle_witness :
    (run ([] ++ AuthEvent.notify none :: [])).loading = false :=
  c2_isResolving_lifecycle.2 [] none []
    (fun e he => absurd he (List.not_mem_nil e))

/-- C3: a rejected `signInWithPopup` or `signOut` is caught inside
`loginWithGoogle` / `logout`: exactly one diagnostic entry is added to
the error log, the Session (`user` and `loading`) is unchanged, and no
exception escapes (both operations are total functions into `Store`). -/
theorem c3_failed_call_caught_and_logged :
    ∀ (s : Store) (msg : String),
      (loginWithGoogle s (Except.error msg)).user = s.user
      ∧ (loginWithGoogle s (Except.error msg)).loading = s.loading
      ∧ (loginWithGoogle s (Except.error msg)).errorLog = s.errorLog + 1
      ∧ (logout s (Except.error msg)).user = s.user
      ∧ (logout s (Except.error msg)).loading = s.loading
      ∧ (logout s (Except.error msg)).errorLog = s.errorLog + 1 :=
  fun _ _ => ⟨rfl, rfl, rfl, rfl, rfl, rfl⟩

/-- C4: `Header` is a pure function of the session's `user`: absent
identity renders the login button bound to the login action; a present
identity renders the avatar (image from `photoURL`, initials fallback
from `displayName`) with a dropdown whose sole item invokes logout. -/
theorem c4_header_pure_function :
    Header none = HeaderView.loginButton UIAction.doLogin
    ∧ ∀ u : UserIdentity,
        Header (some u)
          = HeaderView.avatarMenu (u.photoURL.getD "")
              (u.displayName.getD "User") (getInitials u.displayName)
              (u.displayName.getD "") UIAction.doLogout :=
  ⟨rfl, fun _ => rfl⟩

/-- C5: while `loading` is true the provider renders none of its
children, and `loading` stays true for any run that contains no
notification, so nothing dependent is shown before the first
notification arrives. -/
theorem c5_children_withheld_while_resolving :
    (∀ evs : List AuthEvent,
        (∀ e ∈ evs, ∀ u, e ≠ AuthEvent.notify u) →
        (run evs).loading = true)
    ∧ ∀ (α : Type) (s : Store) (children : α),
        s.loading = true → providerChildren s.loading children = none := by
  constructor
  · intro evs h
    exact foldl_loading_true rfl h
  · intro α s children h
    simp [providerChildren, h]

/-- Witness for C5 at concrete inputs: a run holding only a failed
login keeps `loading` true, and the freshly created store withholds a
concrete child. -/
theorem c5_children_withheld_witness :
    (run [AuthEvent.login (Except.error "popup-closed")]).loading = true
    ∧ providerChildren initStore.loading (0 : Nat) = none :=
  ⟨c5_children_withheld_while_resolving.1
      [AuthEvent.login (Except.error "popup-closed")]
      (by intro e he u; simp at he; simp [he]),
    c5_children_withheld_while_resolving.2 Nat initStore 0 rfl⟩

/-- C6: each delivered notification replaces `user` wholesale with the
notified value, and no other operation (`loginWithGoogle`, `logout`,
`teardown`) ever writes `user`. -/
theorem c6_identity_written_only_by_notifications :
    (∀ (s : Store) (u : Option UserIdentity),
        s.subscribed = true → (onAuthStateChanged s u).user = u)
    ∧ (∀ (s : Store) (r : Except String Unit),
        (loginWithGoogle s r).user = s.user)
    ∧ (∀ (s : Store) (r : Except String Unit), (logout s r).user = s.user)
    ∧ ∀ s : Store, (teardown s).user = s.user := by
  refine ⟨?_, ?_, ?_, fun _ => rfl⟩
  · intro s u h
    simp [onAuthStateChanged, h]
  · intro s r
    cases r <;> rfl
  · intro s r
    cases r <;> rfl

/-- Witness for C6 at a concrete input: a notification on the fresh
store installs exactly the notified identity. -/
theorem c6_identity_witness :
    (onAuthStateChanged initStore
        (some ⟨some "Ada Lovelace", none⟩)).user
      = some ⟨some "Ada Lovelace", none⟩ :=
  c6_identity_written_only_by_notifications.1 initStore
    (some ⟨some "Ada Lovelace", none⟩) rfl

/-- C7: every reachable store state holds at most one live
subscription; the subscription is released exactly at view
destruction — it stays live (count one) through every run that does
not contain the unmount cleanup, and `teardown` releases it. -/
theorem c7_at_most_one_subscription :
    (∀ evs : List AuthEvent, subscriptionCount (run evs) ≤ 1)
    ∧ (∀ evs : List AuthEvent,
        (∀ e ∈ evs, e ≠ AuthEvent.cleanup) →
        subscriptionCount (run evs) = 1)
    ∧ ∀ s : Store, subscriptionCount (teardown s) = 0 := by
  refine ⟨?_, ?_, fun _ => rfl⟩
  · intro evs
    unfold subscriptionCount
    split <;> simp
  · intro evs h
    have hsub : (run evs).subscribed = true := foldl_subscribed rfl h
    simp [subscriptionCount, hsub]

/-- Witness for C7 at a concrete run: after a notification but before
any cleanup, the subscription is still the single live one. -/
theorem c7_at_most_one_subscription_witness :
    subscriptionCount (run [AuthEvent.notify none]) = 1 :=
  c7_at_most_one_subscription.2.1 [AuthEvent.notify none]
    (by intro e he; simp at he; simp [he])

/-- C8: after `teardown`, no later event — notifications included —
changes `user` or `loading`: they keep their pre-teardown values for
the rest of the run. -/
theorem c8_frozen_after_teardown :
    ∀ (s : Store) (evs : List AuthEvent),
      (evs.foldl step (teardown s)).user = s.user
      ∧ (evs.foldl step (teardown s)).loading = s.loading :=
  fun _ evs => foldl_frozen rfl evs

/-- C9: `useAuth` outside any `AuthProvider` raises immediately (an
error, never a default value), while inside a provider it returns the
context. -/
theorem c9_useAuth_outside_provider_raises :
    useAuth none
      = Except.error "useAuth must be used within an AuthProvider"
    ∧ ∀ c : Store, useAuth (some c) = Except.ok c :=
  ⟨rfl, fun _ => rfl⟩

/-- C10: a non-empty `displayName` made only of spaces yields the empty
string (not `"U"`); an empty token produced between two adjacent
spaces contributes nothing, so collapsing one of two consecutive
spaces never changes the initials; and the double-spaced
`"Ada  Lovelace"` still yields `"AL"`. -/
theorem c10_empty_tokens_contribute_nothing :
    (∀ l : List Char, l ≠ [] → (∀ c ∈ l, c = ' ') →
        getInitials (some (String.mk l)) = "")
    ∧ (∀ l₁ l₂ : List Char,
        initialsChars (l₁ ++ ' ' :: ' ' :: l₂)
          = initialsChars (l₁ ++ ' ' :: l₂))
    ∧ getInitials (some "Ada  Lovelace") = "AL" := by
  refine ⟨?_, initialsChars_double_space, by decide⟩
  intro l hne hall
  have hs : String.mk l ≠ "" := by
    intro h
    exact hne (congrArg String.data h)
  have htok := jsSplitChar_all_sep hall
  simp only [getInitials, if_neg hs]
  have : initialsChars l = [] := by
    simp only [initialsChars]
    rw [List.flatten_eq_nil_iff]
    intro x hx
    obtain ⟨t, ht, hft⟩ := List.mem_map.mp hx
    rw [htok t ht] at hft
    exact hft.symm
  rw [this]

/-- Witness for C10 at a concrete input: two spaces alone give the
empty string. -/
theorem c10_empty_tokens_witness :
    getInitials (some (String.mk [' ', ' '])) = "" :=
  c10_empty_tokens_contribute_nothing.1 [' ', ' '] (by decide) (by decide)

end FirebaseAuthSetup
